import Mathlib

/-!
Verification of the WebCamBroadcast front-end. The provided sources hold two
broadcaster variants (a WebRTC signaling broadcaster and a snapshot-pump
broadcaster relaying JPEG frames); the viewer component is routed to but not
itself among the provided sources, so the one viewer-side behavior treated
here is modelled from the words of the specification, as marked at its
definitions. The event handlers are embedded shallowly below: each browser
callback becomes a function on an explicit component-state record, mutation
of refs and React state becomes record update, and the transcript of
envelopes handed to the socket send method is kept as a list. Browser
primitives such as createOffer are modelled as deterministic successes, as
noted at their definitions.
-/

namespace Broadcast

/-- Generic association-list lookup, modelling JS object property access. -/
def alistLookup {α : Type} : List (String × α) → String → Option α
  | [], _ => none
  | (k, v) :: rest, key => if k = key then some v else alistLookup rest key

/-- Overwrite the value at a key, or append the binding, modelling JS object
property assignment. -/
def alistSet {α : Type} : List (String × α) → String → α → List (String × α)
  | [], key, v => [(key, v)]
  | (k, w) :: rest, key, v =>
      if k = key then (key, v) :: rest else (k, w) :: alistSet rest key v

/-- Remove the binding of a key, modelling the JS delete operator. -/
def alistErase {α : Type} : List (String × α) → String → List (String × α)
  | [], _ => []
  | (k, w) :: rest, key => if k = key then rest else (k, w) :: alistErase rest key

/-- The keys of an association list, in order. -/
def alistKeys {α : Type} (l : List (String × α)) : List String := l.map Prod.fst

/-- Apply a function to the element at an index, leaving all other positions
unchanged; an out-of-range index leaves the list unchanged. Models in-place
mutation of one object in a heap of allocated objects. -/
def modifyAt {α : Type} : List α → Nat → (α → α) → List α
  | [], _, _ => []
  | a :: rest, 0, f => f a :: rest
  | a :: rest, n + 1, f => a :: modifyAt rest n f

namespace RTC

/-- A WebRTC session description: a type marker plus SDP text. -/
structure SessionDescription where
  sdpKind : String
  sdp : String
deriving DecidableEq

/-- An ICE candidate payload, kept abstract as its serialized form. -/
structure IceCandidate where
  payload : String
deriving DecidableEq

/-- WebSocket readyState values. -/
inductive ReadyState
  | connecting
  | opened
  | closing
  | closed
deriving DecidableEq

/-- RTCPeerConnection connectionState values. -/
inductive ConnState
  | new
  | connecting
  | connected
  | disconnected
  | failed
  | closed
deriving DecidableEq

/-- One RTCPeerConnection object as created by createPeerConnection in the
WebRTC broadcaster: the viewer id captured by its callbacks, the local tracks
attached to it, its local and remote descriptions, the remote candidates added
to it, and whether close was called on it (after which its signalingState is
the closed state and the object is no longer live). -/
structure PeerConn where
  forViewer : String
  tracks : List Nat
  localDesc : Option SessionDescription
  remoteDesc : Option SessionDescription
  remoteCandidates : List IceCandidate
  closed : Bool
deriving DecidableEq

/-- A signaling envelope passed to the socket send method by the broadcaster.
The offer field is an Option so that a null or missing description is
representable. -/
inductive Envelope
  | broadcasterReady (broadcasterId : String)
  | offer (offer : Option SessionDescription) (viewerId : String) (broadcasterId : String)
  | iceCandidate (candidate : IceCandidate) (viewerId : String) (broadcasterId : String)
deriving DecidableEq

/-- A parsed incoming signaling message, covering the shapes the onmessage
handler of the WebRTC broadcaster inspects; any other message is Msg.other. -/
inductive Msg
  | viewerJoined (viewerId : String)
  | answer (broadcasterId : String) (viewerId : String) (answerDesc : SessionDescription)
  | iceCandidate (broadcasterId : String) (viewerId : String) (candidate : IceCandidate)
  | viewerLeft (viewerId : String)
  | other
deriving DecidableEq

/-- The WebRTC broadcaster component state: the heap of every peer connection
ever created (conns, addressed by allocation index), the viewer-id to
connection-index mapping (peerConnectionsRef), the displayed viewer count,
the socket heap with the current socket reference, the captured local stream
(as a list of track identifiers), the remaining React state, and the
transcript of envelopes handed to the socket send method. -/
structure BState where
  conns : List PeerConn
  peers : List (String × Nat)
  viewerCount : Int
  sockets : List ReadyState
  socketRef : Option Nat
  localStream : Option (List Nat)
  isStreaming : Bool
  status : String
  sent : List Envelope
deriving DecidableEq

/-- createPeerConnection: allocate a fresh connection object, store it in the
mapping under the viewer id (overwriting any previous binding for that id),
and return its heap index together with the updated state. -/
def createPeerConnection (viewerId : String) (s : BState) : Nat × BState :=
  let idx := s.conns.length
  let pc : PeerConn :=
    { forViewer := viewerId, tracks := [], localDesc := none,
      remoteDesc := none, remoteCandidates := [], closed := false }
  (idx, { s with conns := s.conns ++ [pc], peers := alistSet s.peers viewerId idx })

/-- Modelled browser primitive: createOffer is taken to succeed and yield a
definite (non-null) session description for the viewer being negotiated. -/
def createOffer (viewerId : String) : SessionDescription :=
  { sdpKind := "offer", sdp := "sdp:" ++ viewerId }

/-- The viewer_joined branch of the onmessage handler: create and register a
peer connection, then, provided local media was captured, attach every local
track, create and set the local offer, send the offer envelope, and increment
the viewer count. When no local stream is present, the getTracks call throws
and the surrounding catch swallows it, so the connection stays registered but
no tracks are attached, no offer is sent and the count is not incremented. -/
def handleViewerJoined (myId viewerId : String) (s : BState) : BState :=
  let r := createPeerConnection viewerId s
  let idx := r.1
  let s1 := r.2
  match s1.localStream with
  | none => s1
  | some tracks =>
      let s2 := { s1 with conns := modifyAt s1.conns idx (fun pc => { pc with tracks := tracks }) }
      let offer := createOffer viewerId
      let s3 := { s2 with conns := modifyAt s2.conns idx (fun pc => { pc with localDesc := some offer }) }
      let s4 := { s3 with sent := s3.sent ++ [Envelope.offer (some offer) viewerId myId] }
      { s4 with viewerCount := s4.viewerCount + 1 }

/-- The viewer_left branch of the onmessage handler: when the viewer id is in
the mapping, close that connection, delete the binding and decrement the
count floored at zero; otherwise do nothing. -/
def handleViewerLeft (viewerId : String) (s : BState) : BState :=
  match alistLookup s.peers viewerId with
  | some idx =>
      { s with conns := modifyAt s.conns idx (fun pc => { pc with closed := true }),
               peers := alistErase s.peers viewerId,
               viewerCount := max 0 (s.viewerCount - 1) }
  | none => s

/-- The answer branch of the onmessage handler: when the envelope targets this
broadcaster and the mapped connection exists and is not closed, apply the
remote description; otherwise do nothing. -/
def handleAnswer (myId broadcasterId viewerId : String) (d : SessionDescription)
    (s : BState) : BState :=
  if broadcasterId = myId then
    match alistLookup s.peers viewerId with
    | some idx =>
        match s.conns[idx]? with
        | some pc =>
            if pc.closed then s
            else { s with conns := modifyAt s.conns idx (fun c => { c with remoteDesc := some d }) }
        | none => s
    | none => s
  else s

/-- The ice_candidate branch of the onmessage handler: when the envelope
targets this broadcaster and the mapped connection exists and is not closed,
add the candidate; otherwise do nothing. -/
def handleRemoteCandidate (myId broadcasterId viewerId : String) (c : IceCandidate)
    (s : BState) : BState :=
  if broadcasterId = myId then
    match alistLookup s.peers viewerId with
    | some idx =>
        match s.conns[idx]? with
        | some pc =>
            if pc.closed then s
            else
              let addCand := fun (pcc : PeerConn) =>
                { pcc with remoteCandidates := pcc.remoteCandidates ++ [c] }
              { s with conns := modifyAt s.conns idx addCand }
        | none => s
    | none => s
  else s

/-- The signaling-socket onmessage handler of the WebRTC broadcaster. -/
def onmessage (myId : String) (s : BState) (m : Msg) : BState :=
  match m with
  | Msg.viewerJoined vid => handleViewerJoined myId vid s
  | Msg.answer bId vid d => handleAnswer myId bId vid d s
  | Msg.iceCandidate bId vid c => handleRemoteCandidate myId bId vid c s
  | Msg.viewerLeft vid => handleViewerLeft vid s
  | Msg.other => s

/-- Whether a connectionState value is one the broadcaster treats as terminal. -/
def isTerminal : ConnState → Bool
  | ConnState.disconnected => true
  | ConnState.failed => true
  | ConnState.closed => true
  | _ => false

/-- The onconnectionstatechange callback installed for a viewer id: on a
terminal state, close and remove the mapped connection under that id and
decrement the count floored at zero (the source duplicates the viewer_left
cleanup code here); otherwise only log. -/
def onconnectionstatechange (viewerId : String) (st : ConnState) (s : BState) : BState :=
  if isTerminal st then
    match alistLookup s.peers viewerId with
    | some idx =>
        { s with conns := modifyAt s.conns idx (fun pc => { pc with closed := true }),
                 peers := alistErase s.peers viewerId,
                 viewerCount := max 0 (s.viewerCount - 1) }
    | none => s
  else s

/-- Whether the socket reference is non-null and the referenced socket has the
OPEN readyState. -/
def socketOpen (s : BState) : Bool :=
  match s.socketRef with
  | some i =>
      match s.sockets[i]? with
      | some ReadyState.opened => true
      | _ => false
  | none => false

/-- The onicecandidate callback installed for a viewer id: a generated
candidate is forwarded, tagged with the viewer id, exactly when the socket
reference is non-null and open; otherwise the event has no effect (there is
no queue). -/
def onicecandidate (myId viewerId : String) (s : BState) (c : Option IceCandidate) : BState :=
  match c with
  | some cand =>
      if socketOpen s then
        { s with sent := s.sent ++ [Envelope.iceCandidate cand viewerId myId] }
      else s
  | none => s

/-- Close every heap connection whose index is in the mapped list, scanning
from the given base index. Models the forEach over Object.values of the
mapping in stopStreaming. -/
def closeMapped (mapped : List Nat) : Nat → List PeerConn → List PeerConn
  | _, [] => []
  | i, pc :: rest =>
      (if i ∈ mapped then { pc with closed := true } else pc) :: closeMapped mapped (i + 1) rest

/-- stopStreaming: close every mapped peer connection, empty the mapping,
close the socket and null its reference, drop the local stream, clear the
streaming flag and status, and zero the viewer count. -/
def stopStreaming (s : BState) : BState :=
  let conns1 := closeMapped (s.peers.map Prod.snd) 0 s.conns
  let sockets1 :=
    match s.socketRef with
    | some i => s.sockets.set i ReadyState.closed
    | none => s.sockets
  { s with conns := conns1, peers := [], sockets := sockets1, socketRef := none,
           localStream := none, isStreaming := false, status := "Stream ended",
           viewerCount := 0 }

/-- An external event delivered to the WebRTC broadcaster component by the
event loop. -/
inductive Event
  | signal (m : Msg)
  | connState (viewerId : String) (st : ConnState)
  | localCandidate (viewerId : String) (c : Option IceCandidate)
  | stop
deriving DecidableEq

/-- Dispatch one event to its handler. -/
def step (myId : String) (s : BState) (e : Event) : BState :=
  match e with
  | Event.signal m => onmessage myId s m
  | Event.connState vid st => onconnectionstatechange vid st s
  | Event.localCandidate vid c => onicecandidate myId vid s c
  | Event.stop => stopStreaming s

/-- Run a sequence of events from a state. -/
def run (myId : String) (s : BState) (evs : List Event) : BState :=
  evs.foldl (step myId) s

/-- The broadcaster state right after startStreaming has captured local media
and the signaling socket has opened and broadcaster_ready was announced. -/
def streamingState (myId : String) (tracks : List Nat) : BState :=
  { conns := [], peers := [], viewerCount := 0, sockets := [ReadyState.opened],
    socketRef := some 0, localStream := some tracks, isStreaming := true,
    status := "Connected to signaling server, waiting for viewers",
    sent := [Envelope.broadcasterReady myId] }

/-- Number of viewer_joined envelopes in an event list. -/
def countJoins : List Event → Nat
  | [] => 0
  | Event.signal (Msg.viewerJoined _) :: rest => countJoins rest + 1
  | _ :: rest => countJoins rest

/-- Number of viewer_left envelopes in an event list. -/
def countLeaves : List Event → Nat
  | [] => 0
  | Event.signal (Msg.viewerLeft _) :: rest => countLeaves rest + 1
  | _ :: rest => countLeaves rest

/-- Number of viewer_left envelopes that found their viewer id in the mapping
at the moment they were processed, along the run of the events from the given
state. -/
def matchedLeaves (myId : String) : BState → List Event → Nat
  | _, [] => 0
  | s, e :: rest =>
      (match e with
       | Event.signal (Msg.viewerLeft vid) =>
           if (alistLookup s.peers vid).isSome then 1 else 0
       | _ => 0) + matchedLeaves myId (step myId s e) rest

/-- Whether an event is a viewer_joined or viewer_left envelope. -/
def isJoinOrLeave : Event → Bool
  | Event.signal (Msg.viewerJoined _) => true
  | Event.signal (Msg.viewerLeft _) => true
  | _ => false

/-- Modelled from the spec: the claimed viewer count with the decrement
floored at zero applied at every step, independent of connection bookkeeping. -/
def specCountFloored : Int → List Event → Int
  | n, [] => n
  | n, Event.signal (Msg.viewerJoined _) :: rest => specCountFloored (n + 1) rest
  | n, Event.signal (Msg.viewerLeft _) :: rest => specCountFloored (max 0 (n - 1)) rest
  | n, _ :: rest => specCountFloored n rest

/-- The currently joined viewer ids, replayed from the event list alone: a
join adds the id once, a leave or terminal connection state removes it, stop
clears everything, all other events leave it unchanged. -/
def expectedViewers : List String → List Event → List String
  | ks, [] => ks
  | ks, e :: rest =>
      expectedViewers
        (match e with
         | Event.signal (Msg.viewerJoined vid) => if vid ∈ ks then ks else ks ++ [vid]
         | Event.signal (Msg.viewerLeft vid) => ks.erase vid
         | Event.connState vid st => if isTerminal st then ks.erase vid else ks
         | Event.stop => []
         | _ => ks)
        rest

/-- The target of an answer or ice_candidate envelope is unknown, dangling or
already closed: either the viewer id is not in the mapping, or the mapped
index does not address a connection, or the addressed connection is closed. -/
def targetGone (s : BState) (viewerId : String) : Bool :=
  Option.all (fun idx => Option.all (fun pc => pc.closed) s.conns[idx]?)
    (alistLookup s.peers viewerId)

end RTC

namespace Snap

/-- The snapshot-pump broadcaster component state: the tracked viewer-id set
(a JS Set, modelled as a duplicate-free insertion-ordered list), the
displayed viewer count, and the remaining React state. -/
structure BState where
  viewers : List String
  viewerCount : Nat
  isStreaming : Bool
  status : String
deriving DecidableEq

/-- JS Set add: append the element when absent, keep the list unchanged when
already present. -/
def setInsert (l : List String) (v : String) : List String :=
  if v ∈ l then l else l ++ [v]

/-- An external event delivered to the snapshot-pump broadcaster: a
viewer_update envelope with action joined or left, any other or malformed
message, or the stopStreaming action. -/
inductive Event
  | joined (viewerId : String)
  | left (viewerId : String)
  | otherMsg
  | stop
deriving DecidableEq

/-- Dispatch one event: the onmessage handler adds or deletes the id in the
viewer set and displays the resulting set size; other or malformed messages
are swallowed; stopStreaming clears the set, zeroes the count and resets the
streaming flag and status. -/
def step (s : BState) (e : Event) : BState :=
  match e with
  | Event.joined vid =>
      let vs := setInsert s.viewers vid
      { s with viewers := vs, viewerCount := vs.length }
  | Event.left vid =>
      let vs := s.viewers.erase vid
      { s with viewers := vs, viewerCount := vs.length }
  | Event.otherMsg => s
  | Event.stop =>
      { s with viewers := [], viewerCount := 0, isStreaming := false,
               status := "Stream ended" }

/-- The initial snapshot-pump broadcaster state. -/
def init : BState :=
  { viewers := [], viewerCount := 0, isStreaming := false, status := "Ready to stream" }

/-- Run a sequence of events from the initial state. -/
def run (evs : List Event) : BState :=
  evs.foldl step init

end Snap

namespace Viewer

end Viewer

end Broadcast

namespace Broadcast

theorem alistLookup_alistSet_self {α : Type} (l : List (String × α)) (k : String) (v : α) :
    alistLookup (alistSet l k v) k = some v := by
  induction l with
  | nil => simp [alistSet, alistLookup]
  | cons p rest ih =>
      by_cases h : p.1 = k
      · simp [alistSet, alistLookup, h]
      · simp [alistSet, alistLookup, h, ih]

theorem alistSet_length_le {α : Type} (l : List (String × α)) (k : String) (v : α) :
    (alistSet l k v).length ≤ l.length + 1 := by
  induction l with
  | nil => simp [alistSet]
  | cons p rest ih =>
      by_cases h : p.1 = k
      · simp [alistSet, h]
      · simp only [alistSet, h, if_false, List.length_cons]
        omega

theorem alistLookup_length_pos {α : Type} (l : List (String × α)) (k : String) (v : α)
    (h : alistLookup l k = some v) : 1 ≤ l.length := by
  cases l with
  | nil => simp [alistLookup] at h
  | cons p rest => simp

theorem alistErase_length {α : Type} (l : List (String × α)) (k : String) (v : α)
    (h : alistLookup l k = some v) : (alistErase l k).length + 1 = l.length := by
  induction l with
  | nil => simp [alistLookup] at h
  | cons p rest ih =>
      by_cases hk : p.1 = k
      · simp [alistErase, hk]
      · simp only [alistLookup, hk, if_false] at h
        simp only [alistErase, hk, if_false, List.length_cons]
        rw [← ih h]

theorem alistKeys_alistSet {α : Type} (l : List (String × α)) (k : String) (v : α) :
    alistKeys (alistSet l k v)
      = if k ∈ alistKeys l then alistKeys l else alistKeys l ++ [k] := by
  induction l with
  | nil => simp [alistSet, alistKeys]
  | cons p rest ih =>
      by_cases h : p.1 = k
      · simp [alistSet, alistKeys, h]
      · have hne : ¬k = p.1 := fun hh => h hh.symm
        simp only [alistSet, h, if_false, alistKeys, List.map_cons, List.mem_cons, hne,
          false_or] at ih ⊢
        rw [ih]
        by_cases hm : k ∈ List.map Prod.fst rest <;> simp [hm]

theorem alistKeys_alistErase {α : Type} (l : List (String × α)) (k : String) :
    alistKeys (alistErase l k) = (alistKeys l).erase k := by
  induction l with
  | nil => simp [alistErase, alistKeys]
  | cons p rest ih =>
      simp only [alistKeys, List.map_cons, List.erase_cons]
      by_cases h : p.1 = k
      · simp [alistErase, alistKeys, h]
      · rw [if_neg (by simpa using h)]
        simp only [alistErase, h, if_false, List.map_cons]
        simpa [alistKeys] using ih

theorem alistLookup_eq_none_iff {α : Type} (l : List (String × α)) (k : String) :
    alistLookup l k = none ↔ k ∉ alistKeys l := by
  induction l with
  | nil => simp [alistLookup, alistKeys]
  | cons p rest ih =>
      by_cases h : p.1 = k
      · simp [alistLookup, alistKeys, h]
      · have hne : ¬k = p.1 := fun hh => h hh.symm
        simp [alistLookup, alistKeys, h, hne, ih]

theorem alistLookup_isSome_iff {α : Type} (l : List (String × α)) (k : String) :
    (alistLookup l k).isSome = true ↔ k ∈ alistKeys l := by
  cases hl : alistLookup l k with
  | none => simp [(alistLookup_eq_none_iff l k).mp hl]
  | some v =>
      simp only [Option.isSome_some, true_iff]
      by_contra hk
      have hnone := (alistLookup_eq_none_iff l k).mpr hk
      rw [hl] at hnone
      simp at hnone

theorem alistLookup_mem_map_snd {α : Type} (l : List (String × α)) (k : String) (v : α)
    (h : alistLookup l k = some v) : v ∈ l.map Prod.snd := by
  induction l with
  | nil => simp [alistLookup] at h
  | cons p rest ih =>
      by_cases hk : p.1 = k
      · simp only [alistLookup, hk, if_true] at h
        cases h
        simp
      · simp only [alistLookup, hk, if_false] at h
        simp [ih h]

theorem nodup_append_singleton {α : Type} (l : List α) (a : α)
    (ha : a ∉ l) (hl : l.Nodup) : (l ++ [a]).Nodup := by
  induction l with
  | nil => simp
  | cons b rest ih =>
      simp only [List.mem_cons, not_or] at ha
      simp only [List.nodup_cons] at hl
      simp only [List.cons_append, List.nodup_cons, List.mem_append, List.mem_singleton]
      refine ⟨?_, ih ha.2 hl.2⟩
      rintro (hb | hb)
      · exact hl.1 hb
      · exact ha.1 hb.symm

theorem modifyAt_length {α : Type} (l : List α) (i : Nat) (f : α → α) :
    (modifyAt l i f).length = l.length := by
  induction l generalizing i with
  | nil => simp [modifyAt]
  | cons a rest ih =>
      cases i with
      | zero => simp [modifyAt]
      | succ n => simp [modifyAt, ih]

theorem modifyAt_get_self {α : Type} (l : List α) (i : Nat) (f : α → α) :
    (modifyAt l i f)[i]? = l[i]?.map f := by
  induction l generalizing i with
  | nil => simp [modifyAt]
  | cons a rest ih =>
      cases i with
      | zero => simp [modifyAt]
      | succ n => simpa [modifyAt] using ih n

theorem get_append_singleton_length {α : Type} (l : List α) (a : α) :
    (l ++ [a])[l.length]? = some a := by
  induction l with
  | nil => rfl
  | cons b rest ih => simp

theorem get_set_self {α : Type} (l : List α) (i : Nat) (a b : α)
    (h : (l.set i a)[i]? = some b) : b = a := by
  induction l generalizing i with
  | nil => simp at h
  | cons c rest ih =>
      cases i with
      | zero => simp at h; exact h.symm
      | succ n => exact ih n (by simpa using h)

theorem closeMapped_get_mem (mapped : List Nat) :
    ∀ (l : List RTC.PeerConn) (base j : Nat) (pc : RTC.PeerConn),
      (RTC.closeMapped mapped base l)[j]? = some pc → (base + j) ∈ mapped →
        pc.closed = true := by
  intro l
  induction l with
  | nil => intro base j pc h _; simp [RTC.closeMapped] at h
  | cons c rest ih =>
      intro base j pc h hmem
      cases j with
      | zero =>
          simp only [RTC.closeMapped, List.getElem?_cons_zero, Option.some.injEq] at h
          simp only [Nat.add_zero] at hmem
          rw [← h]
          simp [hmem]
      | succ n =>
          simp only [RTC.closeMapped, List.getElem?_cons_succ] at h
          have hx : base + 1 + n = base + (n + 1) := by omega
          exact ih (base + 1) n pc h (by rw [hx]; exact hmem)

end Broadcast

namespace Broadcast

theorem peers_handleViewerJoined (myId vid : String) (s : RTC.BState) :
    (RTC.handleViewerJoined myId vid s).peers = alistSet s.peers vid s.conns.length := by
  unfold RTC.handleViewerJoined RTC.createPeerConnection
  cases s.localStream <;> rfl

theorem count_handleViewerJoined (myId vid : String) (s : RTC.BState) (tracks : List Nat)
    (hls : s.localStream = some tracks) :
    (RTC.handleViewerJoined myId vid s).viewerCount = s.viewerCount + 1 := by
  unfold RTC.handleViewerJoined RTC.createPeerConnection
  simp only [hls]

theorem localStream_handleViewerJoined (myId vid : String) (s : RTC.BState) :
    (RTC.handleViewerJoined myId vid s).localStream = s.localStream := by
  unfold RTC.handleViewerJoined RTC.createPeerConnection
  cases s.localStream <;> rfl

theorem peers_handleViewerLeft (vid : String) (s : RTC.BState) :
    (RTC.handleViewerLeft vid s).peers
      = match alistLookup s.peers vid with
        | some _ => alistErase s.peers vid
        | none => s.peers := by
  unfold RTC.handleViewerLeft
  cases alistLookup s.peers vid <;> rfl

theorem count_handleViewerLeft_some (vid : String) (s : RTC.BState) (idx : Nat)
    (h : alistLookup s.peers vid = some idx) :
    (RTC.handleViewerLeft vid s).viewerCount = max 0 (s.viewerCount - 1) := by
  unfold RTC.handleViewerLeft
  rw [h]

theorem handleViewerLeft_none (vid : String) (s : RTC.BState)
    (h : alistLookup s.peers vid = none) :
    RTC.handleViewerLeft vid s = s := by
  unfold RTC.handleViewerLeft
  rw [h]

theorem localStream_handleViewerLeft (vid : String) (s : RTC.BState) :
    (RTC.handleViewerLeft vid s).localStream = s.localStream := by
  unfold RTC.handleViewerLeft
  cases alistLookup s.peers vid <;> rfl

theorem peers_handleAnswer (myId bId vid : String) (d : RTC.SessionDescription)
    (s : RTC.BState) : (RTC.handleAnswer myId bId vid d s).peers = s.peers := by
  unfold RTC.handleAnswer
  by_cases hb : bId = myId
  · simp only [hb, if_true]
    cases hl : alistLookup s.peers vid with
    | none => rfl
    | some idx =>
        cases hg : s.conns[idx]? with
        | none => simp [hg]
        | some pc => by_cases hc : pc.closed <;> simp [hg, hc]
  · simp [hb]

theorem peers_handleRemoteCandidate (myId bId vid : String) (c : RTC.IceCandidate)
    (s : RTC.BState) : (RTC.handleRemoteCandidate myId bId vid c s).peers = s.peers := by
  unfold RTC.handleRemoteCandidate
  by_cases hb : bId = myId
  · simp only [hb, if_true]
    cases hl : alistLookup s.peers vid with
    | none => rfl
    | some idx =>
        cases hg : s.conns[idx]? with
        | none => simp [hg]
        | some pc => by_cases hc : pc.closed <;> simp [hg, hc]
  · simp [hb]

theorem count_handleAnswer (myId bId vid : String) (d : RTC.SessionDescription)
    (s : RTC.BState) : (RTC.handleAnswer myId bId vid d s).viewerCount = s.viewerCount := by
  unfold RTC.handleAnswer
  by_cases hb : bId = myId
  · simp only [hb, if_true]
    cases hl : alistLookup s.peers vid with
    | none => rfl
    | some idx =>
        cases hg : s.conns[idx]? with
        | none => simp [hg]
        | some pc => by_cases hc : pc.closed <;> simp [hg, hc]
  · simp [hb]

theorem count_handleRemoteCandidate (myId bId vid : String) (c : RTC.IceCandidate)
    (s : RTC.BState) :
    (RTC.handleRemoteCandidate myId bId vid c s).viewerCount = s.viewerCount := by
  unfold RTC.handleRemoteCandidate
  by_cases hb : bId = myId
  · simp only [hb, if_true]
    cases hl : alistLookup s.peers vid with
    | none => rfl
    | some idx =>
        cases hg : s.conns[idx]? with
        | none => simp [hg]
        | some pc => by_cases hc : pc.closed <;> simp [hg, hc]
  · simp [hb]

theorem peers_onconnectionstatechange (vid : String) (st : RTC.ConnState) (s : RTC.BState) :
    (RTC.onconnectionstatechange vid st s).peers
      = if RTC.isTerminal st then
          (match alistLookup s.peers vid with
           | some _ => alistErase s.peers vid
           | none => s.peers)
        else s.peers := by
  unfold RTC.onconnectionstatechange
  by_cases ht : RTC.isTerminal st
  · simp only [ht, if_true]
    cases alistLookup s.peers vid <;> rfl
  · simp [ht]

theorem peers_onicecandidate (myId vid : String) (s : RTC.BState)
    (c : Option RTC.IceCandidate) :
    (RTC.onicecandidate myId vid s c).peers = s.peers := by
  unfold RTC.onicecandidate
  cases c with
  | none => rfl
  | some cand => by_cases h : RTC.socketOpen s <;> simp [h]

end Broadcast

namespace Broadcast

theorem step_signal (myId : String) (s : RTC.BState) (m : RTC.Msg) :
    RTC.step myId s (RTC.Event.signal m) = RTC.onmessage myId s m := rfl

theorem run_count_joinleave (myId : String) :
    ∀ (evs : List RTC.Event) (s : RTC.BState),
      (∀ e ∈ evs, RTC.isJoinOrLeave e = true) →
      s.localStream.isSome = true → (s.peers.length : Int) ≤ s.viewerCount →
      (RTC.run myId s evs).viewerCount
          = s.viewerCount + RTC.countJoins evs - RTC.matchedLeaves myId s evs
        ∧ (RTC.run myId s evs).localStream.isSome = true
        ∧ ((RTC.run myId s evs).peers.length : Int) ≤ (RTC.run myId s evs).viewerCount := by
  intro evs
  induction evs with
  | nil =>
      intro s _ hls hinv
      exact ⟨by simp [RTC.run, RTC.countJoins, RTC.matchedLeaves], hls, hinv⟩
  | cons e rest ih =>
      intro s hall hls hinv
      have he : RTC.isJoinOrLeave e = true := hall e (by simp)
      have hrest : ∀ x ∈ rest, RTC.isJoinOrLeave x = true := fun x hx => hall x (by simp [hx])
      have hruncons : RTC.run myId s (e :: rest) = RTC.run myId (RTC.step myId s e) rest := rfl
      match e with
      | RTC.Event.signal (RTC.Msg.viewerJoined vid) =>
          obtain ⟨tr, htr⟩ := Option.isSome_iff_exists.mp hls
          set s1 := RTC.step myId s (RTC.Event.signal (RTC.Msg.viewerJoined vid)) with hs1
          have hstep : s1 = RTC.handleViewerJoined myId vid s := rfl
          have hcount : s1.viewerCount = s.viewerCount + 1 := by
            rw [hstep]; exact count_handleViewerJoined myId vid s tr htr
          have hls1 : s1.localStream.isSome = true := by
            rw [hstep, localStream_handleViewerJoined]; exact hls
          have hpeers1 : s1.peers = alistSet s.peers vid s.conns.length := by
            rw [hstep]; exact peers_handleViewerJoined myId vid s
          have hlen1 : (s1.peers.length : Int) ≤ s1.viewerCount := by
            rw [hpeers1, hcount]
            have := alistSet_length_le s.peers vid s.conns.length
            have hcast : (alistSet s.peers vid s.conns.length).length ≤ s.peers.length + 1 := this
            omega
          obtain ⟨hc, hl2, hi2⟩ := ih s1 hrest hls1 hlen1
          refine ⟨?_, by rw [hruncons]; exact hl2, by rw [hruncons]; exact hi2⟩
          rw [hruncons, hc, hcount]
          have hcj : RTC.countJoins (RTC.Event.signal (RTC.Msg.viewerJoined vid) :: rest)
              = RTC.countJoins rest + 1 := rfl
          have hml : RTC.matchedLeaves myId s (RTC.Event.signal (RTC.Msg.viewerJoined vid) :: rest)
              = RTC.matchedLeaves myId s1 rest := by
            simp [RTC.matchedLeaves, hs1]
          rw [hcj, hml]
          push_cast
          ring
      | RTC.Event.signal (RTC.Msg.viewerLeft vid) =>
          have hcj : RTC.countJoins (RTC.Event.signal (RTC.Msg.viewerLeft vid) :: rest)
              = RTC.countJoins rest := rfl
          cases hl : alistLookup s.peers vid with
          | some idx =>
              set s1 := RTC.step myId s (RTC.Event.signal (RTC.Msg.viewerLeft vid)) with hs1
              have hstep : s1 = RTC.handleViewerLeft vid s := rfl
              have hple : 1 ≤ s.peers.length := alistLookup_length_pos s.peers vid idx hl
              have hcge : (1 : Int) ≤ s.viewerCount := by
                have : (1 : Int) ≤ (s.peers.length : Int) := by exact_mod_cast hple
                omega
              have hcount : s1.viewerCount = s.viewerCount - 1 := by
                rw [hstep, count_handleViewerLeft_some vid s idx hl]
                rw [max_eq_right (by omega)]
              have hls1 : s1.localStream.isSome = true := by
                rw [hstep, localStream_handleViewerLeft]; exact hls
              have hpeers1 : s1.peers = alistErase s.peers vid := by
                rw [hstep, peers_handleViewerLeft, hl]
              have hlen' : (alistErase s.peers vid).length + 1 = s.peers.length :=
                alistErase_length s.peers vid idx hl
              have hlen1 : (s1.peers.length : Int) ≤ s1.viewerCount := by
                rw [hpeers1, hcount]
                omega
              obtain ⟨hc, hl2, hi2⟩ := ih s1 hrest hls1 hlen1
              refine ⟨?_, by rw [hruncons]; exact hl2, by rw [hruncons]; exact hi2⟩
              rw [hruncons, hc, hcount]
              have hml : RTC.matchedLeaves myId s (RTC.Event.signal (RTC.Msg.viewerLeft vid) :: rest)
                  = 1 + RTC.matchedLeaves myId s1 rest := by
                simp [RTC.matchedLeaves, hl, hs1]
              rw [hcj, hml]
              push_cast
              ring
          | none =>
              have hstep : RTC.step myId s (RTC.Event.signal (RTC.Msg.viewerLeft vid)) = s := by
                rw [step_signal]
                exact handleViewerLeft_none vid s hl
              obtain ⟨hc, hl2, hi2⟩ := ih s hrest hls hinv
              rw [hruncons, hstep]
              refine ⟨?_, hl2, hi2⟩
              rw [hc]
              have hml : RTC.matchedLeaves myId s (RTC.Event.signal (RTC.Msg.viewerLeft vid) :: rest)
                  = RTC.matchedLeaves myId s rest := by
                simp [RTC.matchedLeaves, hl, hstep]
              rw [hcj, hml]
      | RTC.Event.signal (RTC.Msg.answer b v d) => simp [RTC.isJoinOrLeave] at he
      | RTC.Event.signal (RTC.Msg.iceCandidate b v c) => simp [RTC.isJoinOrLeave] at he
      | RTC.Event.signal RTC.Msg.other => simp [RTC.isJoinOrLeave] at he
      | RTC.Event.connState v st => simp [RTC.isJoinOrLeave] at he
      | RTC.Event.localCandidate v c => simp [RTC.isJoinOrLeave] at he
      | RTC.Event.stop => simp [RTC.isJoinOrLeave] at he

end Broadcast

namespace Broadcast

theorem keys_handleViewerJoined (myId vid : String) (s : RTC.BState) :
    alistKeys (RTC.handleViewerJoined myId vid s).peers
      = if vid ∈ alistKeys s.peers then alistKeys s.peers
        else alistKeys s.peers ++ [vid] := by
  rw [peers_handleViewerJoined, alistKeys_alistSet]

theorem keys_handleViewerLeft (vid : String) (s : RTC.BState) :
    alistKeys (RTC.handleViewerLeft vid s).peers = (alistKeys s.peers).erase vid := by
  rw [peers_handleViewerLeft]
  cases hl : alistLookup s.peers vid with
  | some idx => exact alistKeys_alistErase s.peers vid
  | none =>
      have hmem := (alistLookup_eq_none_iff s.peers vid).mp hl
      simp [List.erase_of_not_mem hmem]

theorem keys_onconnectionstatechange (vid : String) (st : RTC.ConnState) (s : RTC.BState) :
    alistKeys (RTC.onconnectionstatechange vid st s).peers
      = if RTC.isTerminal st then (alistKeys s.peers).erase vid else alistKeys s.peers := by
  rw [peers_onconnectionstatechange]
  by_cases ht : RTC.isTerminal st
  · simp only [ht, if_true]
    cases hl : alistLookup s.peers vid with
    | some idx => exact alistKeys_alistErase s.peers vid
    | none =>
        have hmem := (alistLookup_eq_none_iff s.peers vid).mp hl
        simp [List.erase_of_not_mem hmem]
  · simp [ht]

theorem peers_stopStreaming (s : RTC.BState) : (RTC.stopStreaming s).peers = [] := by
  unfold RTC.stopStreaming
  cases s.socketRef <;> rfl

theorem keys_run (myId : String) :
    ∀ (evs : List RTC.Event) (s : RTC.BState),
      alistKeys (RTC.run myId s evs).peers
        = RTC.expectedViewers (alistKeys s.peers) evs := by
  intro evs
  induction evs with
  | nil => intro s; rfl
  | cons e rest ih =>
      intro s
      have hruncons : RTC.run myId s (e :: rest) = RTC.run myId (RTC.step myId s e) rest := rfl
      rw [hruncons, ih]
      match e with
      | RTC.Event.signal (RTC.Msg.viewerJoined vid) =>
          simp only [RTC.expectedViewers]
          rw [show RTC.step myId s (RTC.Event.signal (RTC.Msg.viewerJoined vid))
              = RTC.handleViewerJoined myId vid s from rfl, keys_handleViewerJoined]
      | RTC.Event.signal (RTC.Msg.viewerLeft vid) =>
          simp only [RTC.expectedViewers]
          rw [show RTC.step myId s (RTC.Event.signal (RTC.Msg.viewerLeft vid))
              = RTC.handleViewerLeft vid s from rfl, keys_handleViewerLeft]
      | RTC.Event.signal (RTC.Msg.answer b v d) =>
          simp only [RTC.expectedViewers]
          rw [show RTC.step myId s (RTC.Event.signal (RTC.Msg.answer b v d))
              = RTC.handleAnswer myId b v d s from rfl]
          rw [show alistKeys (RTC.handleAnswer myId b v d s).peers = alistKeys s.peers from
              by rw [peers_handleAnswer]]
      | RTC.Event.signal (RTC.Msg.iceCandidate b v c) =>
          simp only [RTC.expectedViewers]
          rw [show RTC.step myId s (RTC.Event.signal (RTC.Msg.iceCandidate b v c))
              = RTC.handleRemoteCandidate myId b v c s from rfl]
          rw [show alistKeys (RTC.handleRemoteCandidate myId b v c s).peers = alistKeys s.peers from
              by rw [peers_handleRemoteCandidate]]
      | RTC.Event.signal RTC.Msg.other =>
          simp only [RTC.expectedViewers]
          rfl
      | RTC.Event.connState v st =>
          simp only [RTC.expectedViewers]
          rw [show RTC.step myId s (RTC.Event.connState v st)
              = RTC.onconnectionstatechange v st s from rfl, keys_onconnectionstatechange]
      | RTC.Event.localCandidate v c =>
          simp only [RTC.expectedViewers]
          rw [show alistKeys (RTC.step myId s (RTC.Event.localCandidate v c)).peers
              = alistKeys s.peers from by
            rw [show RTC.step myId s (RTC.Event.localCandidate v c)
                = RTC.onicecandidate myId v s c from rfl, peers_onicecandidate]]
      | RTC.Event.stop =>
          simp only [RTC.expectedViewers]
          rw [show alistKeys (RTC.step myId s RTC.Event.stop).peers = alistKeys ([] : List (String × Nat)) from by
            rw [show RTC.step myId s RTC.Event.stop = RTC.stopStreaming s from rfl, peers_stopStreaming]]
          rfl

theorem keys_nodup_run (myId : String) :
    ∀ (evs : List RTC.Event) (s : RTC.BState),
      (alistKeys s.peers).Nodup → (alistKeys (RTC.run myId s evs).peers).Nodup := by
  intro evs
  induction evs with
  | nil => intro s h; exact h
  | cons e rest ih =>
      intro s h
      have hruncons : RTC.run myId s (e :: rest) = RTC.run myId (RTC.step myId s e) rest := rfl
      rw [hruncons]
      refine ih (RTC.step myId s e) ?_
      match e with
      | RTC.Event.signal (RTC.Msg.viewerJoined vid) =>
          rw [show RTC.step myId s (RTC.Event.signal (RTC.Msg.viewerJoined vid))
              = RTC.handleViewerJoined myId vid s from rfl, keys_handleViewerJoined]
          by_cases hm : vid ∈ alistKeys s.peers
          · simpa [hm] using h
          · rw [if_neg hm]
            exact nodup_append_singleton _ vid hm h
      | RTC.Event.signal (RTC.Msg.viewerLeft vid) =>
          rw [show RTC.step myId s (RTC.Event.signal (RTC.Msg.viewerLeft vid))
              = RTC.handleViewerLeft vid s from rfl, keys_handleViewerLeft]
          exact h.erase vid
      | RTC.Event.signal (RTC.Msg.answer b v d) =>
          rw [show RTC.step myId s (RTC.Event.signal (RTC.Msg.answer b v d))
              = RTC.handleAnswer myId b v d s from rfl]
          unfold alistKeys
          rw [show (RTC.handleAnswer myId b v d s).peers = s.peers from peers_handleAnswer myId b v d s]
          exact h
      | RTC.Event.signal (RTC.Msg.iceCandidate b v c) =>
          rw [show RTC.step myId s (RTC.Event.signal (RTC.Msg.iceCandidate b v c))
              = RTC.handleRemoteCandidate myId b v c s from rfl]
          unfold alistKeys
          rw [show (RTC.handleRemoteCandidate myId b v c s).peers = s.peers from
              peers_handleRemoteCandidate myId b v c s]
          exact h
      | RTC.Event.signal RTC.Msg.other => exact h
      | RTC.Event.connState v st =>
          rw [show RTC.step myId s (RTC.Event.connState v st)
              = RTC.onconnectionstatechange v st s from rfl, keys_onconnectionstatechange]
          by_cases ht : RTC.isTerminal st
          · rw [if_pos ht]; exact h.erase v
          · rw [if_neg ht]; exact h
      | RTC.Event.localCandidate v c =>
          rw [show RTC.step myId s (RTC.Event.localCandidate v c)
              = RTC.onicecandidate myId v s c from rfl]
          unfold alistKeys
          rw [show (RTC.onicecandidate myId v s c).peers = s.peers from
              peers_onicecandidate myId v s c]
          exact h
      | RTC.Event.stop =>
          rw [show RTC.step myId s RTC.Event.stop = RTC.stopStreaming s from rfl]
          unfold alistKeys
          rw [peers_stopStreaming]
          simp

end Broadcast

namespace Broadcast

/-- C1 is refuted as stated: after the event sequence join v1, join v1,
leave v1, leave v1 the broadcaster displays viewer count 1, while the number
of joins minus the number of leaves floored at zero is 0, both when the floor
is applied to the final difference and when it is applied at every step
(specCountFloored). The second leave finds no mapped connection, so the code
skips the decrement. -/
theorem c1_count_counterexample :
    (RTC.run "b" (RTC.streamingState "b" [0])
        [RTC.Event.signal (RTC.Msg.viewerJoined "v1"),
         RTC.Event.signal (RTC.Msg.viewerJoined "v1"),
         RTC.Event.signal (RTC.Msg.viewerLeft "v1"),
         RTC.Event.signal (RTC.Msg.viewerLeft "v1")]).viewerCount = 1
    ∧ max 0 ((RTC.countJoins
        [RTC.Event.signal (RTC.Msg.viewerJoined "v1"),
         RTC.Event.signal (RTC.Msg.viewerJoined "v1"),
         RTC.Event.signal (RTC.Msg.viewerLeft "v1"),
         RTC.Event.signal (RTC.Msg.viewerLeft "v1")] : Int)
        - (RTC.countLeaves
        [RTC.Event.signal (RTC.Msg.viewerJoined "v1"),
         RTC.Event.signal (RTC.Msg.viewerJoined "v1"),
         RTC.Event.signal (RTC.Msg.viewerLeft "v1"),
         RTC.Event.signal (RTC.Msg.viewerLeft "v1")] : Int)) = 0
    ∧ RTC.specCountFloored 0
        [RTC.Event.signal (RTC.Msg.viewerJoined "v1"),
         RTC.Event.signal (RTC.Msg.viewerJoined "v1"),
         RTC.Event.signal (RTC.Msg.viewerLeft "v1"),
         RTC.Event.signal (RTC.Msg.viewerLeft "v1")] = 0 := by
  refine ⟨by decide, by decide, by decide⟩

/-- C1 (amended): for every sequence of viewer_joined and viewer_left
envelopes processed while streaming, the tracked viewer count equals the
number of joins minus the number of matched leaves, that is, leaves whose
viewer id had a mapped connection when processed (a leave for an unknown or
already-removed id does not decrement), and the count is never negative. -/
theorem c1_viewer_count_amended (myId : String) (tracks : List Nat) (evs : List RTC.Event)
    (h : ∀ e ∈ evs, RTC.isJoinOrLeave e = true) :
    (RTC.run myId (RTC.streamingState myId tracks) evs).viewerCount
        = (RTC.countJoins evs : Int)
          - (RTC.matchedLeaves myId (RTC.streamingState myId tracks) evs : Int)
    ∧ 0 ≤ (RTC.run myId (RTC.streamingState myId tracks) evs).viewerCount := by
  obtain ⟨hc, _, hi⟩ := run_count_joinleave myId evs (RTC.streamingState myId tracks) h
    (by rfl) (by simp [RTC.streamingState, alistKeys])
  constructor
  · rw [hc]
    have h0 : (RTC.streamingState myId tracks).viewerCount = 0 := rfl
    rw [h0]
    ring
  · have hnn : (0 : Int) ≤ ((RTC.run myId (RTC.streamingState myId tracks) evs).peers.length : Int) := by
      exact_mod_cast Nat.zero_le _
    omega

/-- Witness for the amended C1 at the concrete sequence join v1 then
leave v1. -/
theorem c1_viewer_count_amended_witness :
    (RTC.run "b" (RTC.streamingState "b" [0])
        [RTC.Event.signal (RTC.Msg.viewerJoined "v1"),
         RTC.Event.signal (RTC.Msg.viewerLeft "v1")]).viewerCount
        = (RTC.countJoins
            [RTC.Event.signal (RTC.Msg.viewerJoined "v1"),
             RTC.Event.signal (RTC.Msg.viewerLeft "v1")] : Int)
          - (RTC.matchedLeaves "b" (RTC.streamingState "b" [0])
            [RTC.Event.signal (RTC.Msg.viewerJoined "v1"),
             RTC.Event.signal (RTC.Msg.viewerLeft "v1")] : Int)
    ∧ 0 ≤ (RTC.run "b" (RTC.streamingState "b" [0])
        [RTC.Event.signal (RTC.Msg.viewerJoined "v1"),
         RTC.Event.signal (RTC.Msg.viewerLeft "v1")]).viewerCount :=
  c1_viewer_count_amended "b" [0]
    [RTC.Event.signal (RTC.Msg.viewerJoined "v1"),
     RTC.Event.signal (RTC.Msg.viewerLeft "v1")] (by decide)

/-- C2: an answer or ice_candidate envelope whose viewer id is unknown to the
mapping, whose mapped index is dangling, or whose mapped connection is
already closed, leaves the whole broadcaster state unchanged; since the
handler is a total function, no error is raised. -/
theorem c2_unknown_or_closed_target_ignored (myId bId vid : String)
    (d : RTC.SessionDescription) (c : RTC.IceCandidate) (s : RTC.BState)
    (h : RTC.targetGone s vid = true) :
    RTC.onmessage myId s (RTC.Msg.answer bId vid d) = s
    ∧ RTC.onmessage myId s (RTC.Msg.iceCandidate bId vid c) = s := by
  unfold RTC.targetGone at h
  constructor
  · show RTC.handleAnswer myId bId vid d s = s
    unfold RTC.handleAnswer
    by_cases hb : bId = myId
    · simp only [hb, if_true]
      cases hl : alistLookup s.peers vid with
      | none => rfl
      | some idx =>
          rw [hl] at h
          simp only [Option.all] at h
          cases hg : s.conns[idx]? with
          | none => simp [hg]
          | some pc =>
              rw [hg] at h
              simp only [Option.all] at h
              simp [hg, h]
    · simp [hb]
  · show RTC.handleRemoteCandidate myId bId vid c s = s
    unfold RTC.handleRemoteCandidate
    by_cases hb : bId = myId
    · simp only [hb, if_true]
      cases hl : alistLookup s.peers vid with
      | none => rfl
      | some idx =>
          rw [hl] at h
          simp only [Option.all] at h
          cases hg : s.conns[idx]? with
          | none => simp [hg]
          | some pc =>
              rw [hg] at h
              simp only [Option.all] at h
              simp [hg, h]
    · simp [hb]

/-- Witness for C2 at a state whose mapping does not know viewer v9. -/
theorem c2_unknown_or_closed_target_ignored_witness :
    RTC.onmessage "b" (RTC.streamingState "b" [0])
        (RTC.Msg.answer "b" "v9" (RTC.createOffer "v9")) = RTC.streamingState "b" [0]
    ∧ RTC.onmessage "b" (RTC.streamingState "b" [0])
        (RTC.Msg.iceCandidate "b" "v9" { payload := "cand" }) = RTC.streamingState "b" [0] :=
  c2_unknown_or_closed_target_ignored "b" "b" "v9" (RTC.createOffer "v9")
    { payload := "cand" } (RTC.streamingState "b" [0]) (by decide)

end Broadcast

namespace Broadcast

/-- C3: when local media is captured, processing viewer_joined for v1 creates
exactly one fresh peer connection registered under v1 (at the next heap
index), attaches every local track to it and sets the created offer as its
local description, and appends exactly one envelope to the send transcript:
an offer envelope for v1 whose offer field is a non-null (some) session
description. -/
theorem c3_viewer_joined_emits_one_offer (myId : String) (s : RTC.BState) (tracks : List Nat)
    (h : s.localStream = some tracks) :
    alistLookup (RTC.onmessage myId s (RTC.Msg.viewerJoined "v1")).peers "v1"
        = some s.conns.length
    ∧ (RTC.onmessage myId s (RTC.Msg.viewerJoined "v1")).conns.length = s.conns.length + 1
    ∧ (RTC.onmessage myId s (RTC.Msg.viewerJoined "v1")).conns[s.conns.length]?
        = some { forViewer := "v1", tracks := tracks,
                 localDesc := some (RTC.createOffer "v1"), remoteDesc := none,
                 remoteCandidates := [], closed := false }
    ∧ (RTC.onmessage myId s (RTC.Msg.viewerJoined "v1")).sent
        = s.sent ++ [RTC.Envelope.offer (some (RTC.createOffer "v1")) "v1" myId] := by
  have hom : RTC.onmessage myId s (RTC.Msg.viewerJoined "v1")
      = RTC.handleViewerJoined myId "v1" s := rfl
  rw [hom]
  unfold RTC.handleViewerJoined RTC.createPeerConnection
  simp only [h]
  refine ⟨?_, ?_, ?_, ?_⟩
  · exact alistLookup_alistSet_self s.peers "v1" s.conns.length
  · simp [modifyAt_length]
  · rw [modifyAt_get_self, modifyAt_get_self, get_append_singleton_length]
    rfl
  · trivial

/-- Witness for C3 at the streaming start state with two local tracks. -/
theorem c3_viewer_joined_emits_one_offer_witness :
    alistLookup (RTC.onmessage "b" (RTC.streamingState "b" [5, 7])
        (RTC.Msg.viewerJoined "v1")).peers "v1"
        = some (RTC.streamingState "b" [5, 7]).conns.length
    ∧ (RTC.onmessage "b" (RTC.streamingState "b" [5, 7])
        (RTC.Msg.viewerJoined "v1")).conns.length
        = (RTC.streamingState "b" [5, 7]).conns.length + 1
    ∧ (RTC.onmessage "b" (RTC.streamingState "b" [5, 7])
        (RTC.Msg.viewerJoined "v1")).conns[(RTC.streamingState "b" [5, 7]).conns.length]?
        = some { forViewer := "v1", tracks := [5, 7],
                 localDesc := some (RTC.createOffer "v1"), remoteDesc := none,
                 remoteCandidates := [], closed := false }
    ∧ (RTC.onmessage "b" (RTC.streamingState "b" [5, 7])
        (RTC.Msg.viewerJoined "v1")).sent
        = (RTC.streamingState "b" [5, 7]).sent
          ++ [RTC.Envelope.offer (some (RTC.createOffer "v1")) "v1" "b"] :=
  c3_viewer_joined_emits_one_offer "b" (RTC.streamingState "b" [5, 7]) [5, 7] rfl

/-- C4 is refuted in its last conjunct: after a repeated viewer_joined for
v1 the mapping holds the single binding of v1 to the second connection, but
the first connection created for v1 was never closed, so two live (unclosed)
connections for v1 exist in the heap. -/
theorem c4_duplicate_join_counterexample :
    ((RTC.run "b" (RTC.streamingState "b" [0])
        [RTC.Event.signal (RTC.Msg.viewerJoined "v1"),
         RTC.Event.signal (RTC.Msg.viewerJoined "v1")]).conns.filter
        (fun pc => pc.forViewer == "v1" && !pc.closed)).length = 2
    ∧ (RTC.run "b" (RTC.streamingState "b" [0])
        [RTC.Event.signal (RTC.Msg.viewerJoined "v1"),
         RTC.Event.signal (RTC.Msg.viewerJoined "v1")]).peers = [("v1", 1)] := by
  refine ⟨by decide, by decide⟩

/-- C4 (amended): after any event sequence the mapping holds exactly one
binding per currently joined viewer id (the keys replay the joins minus the
leaves, terminal states and stops, without duplicates), and it retains no
binding for a viewer that left or whose connection reached a terminal state;
however a repeated viewer_joined overwrites the binding without closing the
superseded connection, which stays live in the heap. -/
theorem c4_mapping_tracks_joined_amended (myId : String) (tracks : List Nat)
    (evs : List RTC.Event) :
    alistKeys (RTC.run myId (RTC.streamingState myId tracks) evs).peers
        = RTC.expectedViewers [] evs
    ∧ (alistKeys (RTC.run myId (RTC.streamingState myId tracks) evs).peers).Nodup := by
  constructor
  · have hk := keys_run myId evs (RTC.streamingState myId tracks)
    have h0 : alistKeys (RTC.streamingState myId tracks).peers = [] := rfl
    rw [hk, h0]
  · exact keys_nodup_run myId evs (RTC.streamingState myId tracks) (by simp [RTC.streamingState, alistKeys])

/-- C5: a terminal connection-state callback for a viewer id transforms the
broadcaster state exactly as a viewer_left envelope for that id does, it
creates no connection (the heap length is unchanged) and it sends nothing
(no reconnection attempt). -/
theorem c5_terminal_state_acts_as_viewer_left (myId vid : String) (st : RTC.ConnState)
    (s : RTC.BState) (h : RTC.isTerminal st = true) :
    RTC.onconnectionstatechange vid st s = RTC.onmessage myId s (RTC.Msg.viewerLeft vid)
    ∧ (RTC.onconnectionstatechange vid st s).conns.length = s.conns.length
    ∧ (RTC.onconnectionstatechange vid st s).sent = s.sent := by
  have heq : RTC.onconnectionstatechange vid st s = RTC.handleViewerLeft vid s := by
    unfold RTC.onconnectionstatechange RTC.handleViewerLeft
    rw [h]
    simp
  refine ⟨heq, ?_, ?_⟩
  · rw [heq]
    unfold RTC.handleViewerLeft
    cases hl : alistLookup s.peers vid with
    | some idx => simp [modifyAt_length]
    | none => rfl
  · rw [heq]
    unfold RTC.handleViewerLeft
    cases hl : alistLookup s.peers vid with
    | some idx => rfl
    | none => rfl

/-- Witness for C5 at the failed state of the connection of a joined viewer. -/
theorem c5_terminal_state_acts_as_viewer_left_witness :
    RTC.onconnectionstatechange "v1" RTC.ConnState.failed
        (RTC.run "b" (RTC.streamingState "b" [0])
          [RTC.Event.signal (RTC.Msg.viewerJoined "v1")])
      = RTC.onmessage "b"
          (RTC.run "b" (RTC.streamingState "b" [0])
            [RTC.Event.signal (RTC.Msg.viewerJoined "v1")])
          (RTC.Msg.viewerLeft "v1")
    ∧ (RTC.onconnectionstatechange "v1" RTC.ConnState.failed
        (RTC.run "b" (RTC.streamingState "b" [0])
          [RTC.Event.signal (RTC.Msg.viewerJoined "v1")])).conns.length
      = (RTC.run "b" (RTC.streamingState "b" [0])
          [RTC.Event.signal (RTC.Msg.viewerJoined "v1")]).conns.length
    ∧ (RTC.onconnectionstatechange "v1" RTC.ConnState.failed
        (RTC.run "b" (RTC.streamingState "b" [0])
          [RTC.Event.signal (RTC.Msg.viewerJoined "v1")])).sent
      = (RTC.run "b" (RTC.streamingState "b" [0])
          [RTC.Event.signal (RTC.Msg.viewerJoined "v1")]).sent :=
  c5_terminal_state_acts_as_viewer_left "b" "v1" RTC.ConnState.failed
    (RTC.run "b" (RTC.streamingState "b" [0])
      [RTC.Event.signal (RTC.Msg.viewerJoined "v1")]) (by decide)

end Broadcast

namespace Broadcast

/-- C6: after stopStreaming, every connection that the mapping referenced is
closed in the heap, the mapping is empty, the socket was closed and its
reference nulled, the local media reference is nulled and the viewer count is
zero; stopStreaming is a single synchronous function of the state, so all of
this holds before any later event can be processed. -/
theorem c6_stop_streaming_teardown (s : RTC.BState) (vid : String) (idx : Nat) (i : Nat)
    (hv : alistLookup s.peers vid = some idx) (hs : s.socketRef = some i) :
    Option.all (fun pc => pc.closed) (RTC.stopStreaming s).conns[idx]? = true
    ∧ (RTC.stopStreaming s).peers = []
    ∧ (RTC.stopStreaming s).socketRef = none
    ∧ Option.all (fun st => decide (st = RTC.ReadyState.closed))
        (RTC.stopStreaming s).sockets[i]? = true
    ∧ (RTC.stopStreaming s).localStream = none
    ∧ (RTC.stopStreaming s).viewerCount = 0 := by
  have hconns : (RTC.stopStreaming s).conns
      = RTC.closeMapped (s.peers.map Prod.snd) 0 s.conns := by
    unfold RTC.stopStreaming
    cases s.socketRef <;> rfl
  have hsockets : (RTC.stopStreaming s).sockets = s.sockets.set i RTC.ReadyState.closed := by
    unfold RTC.stopStreaming
    rw [hs]
  have hmem : idx ∈ s.peers.map Prod.snd := alistLookup_mem_map_snd s.peers vid idx hv
  refine ⟨?_, ?_, ?_, ?_, ?_, ?_⟩
  · rw [hconns]
    cases hg : (RTC.closeMapped (s.peers.map Prod.snd) 0 s.conns)[idx]? with
    | none => rfl
    | some pc =>
        have hcl := closeMapped_get_mem (s.peers.map Prod.snd) s.conns 0 idx pc hg
          (by simpa using hmem)
        simp [Option.all, hcl]
  · exact peers_stopStreaming s
  · unfold RTC.stopStreaming
    cases s.socketRef <;> rfl
  · rw [hsockets]
    cases hg : (s.sockets.set i RTC.ReadyState.closed)[i]? with
    | none => rfl
    | some st =>
        have := get_set_self s.sockets i RTC.ReadyState.closed st hg
        simp [Option.all, this]
  · unfold RTC.stopStreaming
    cases s.socketRef <;> rfl
  · unfold RTC.stopStreaming
    cases s.socketRef <;> rfl

/-- Witness for C6 at a streaming state with one joined viewer. -/
theorem c6_stop_streaming_teardown_witness :
    Option.all (fun pc => pc.closed)
        (RTC.stopStreaming (RTC.run "b" (RTC.streamingState "b" [0])
          [RTC.Event.signal (RTC.Msg.viewerJoined "v1")])).conns[0]? = true
    ∧ (RTC.stopStreaming (RTC.run "b" (RTC.streamingState "b" [0])
          [RTC.Event.signal (RTC.Msg.viewerJoined "v1")])).peers = []
    ∧ (RTC.stopStreaming (RTC.run "b" (RTC.streamingState "b" [0])
          [RTC.Event.signal (RTC.Msg.viewerJoined "v1")])).socketRef = none
    ∧ Option.all (fun st => decide (st = RTC.ReadyState.closed))
        (RTC.stopStreaming (RTC.run "b" (RTC.streamingState "b" [0])
          [RTC.Event.signal (RTC.Msg.viewerJoined "v1")])).sockets[0]? = true
    ∧ (RTC.stopStreaming (RTC.run "b" (RTC.streamingState "b" [0])
          [RTC.Event.signal (RTC.Msg.viewerJoined "v1")])).localStream = none
    ∧ (RTC.stopStreaming (RTC.run "b" (RTC.streamingState "b" [0])
          [RTC.Event.signal (RTC.Msg.viewerJoined "v1")])).viewerCount = 0 :=
  c6_stop_streaming_teardown
    (RTC.run "b" (RTC.streamingState "b" [0])
      [RTC.Event.signal (RTC.Msg.viewerJoined "v1")]) "v1" 0 0 (by decide) (by decide)

/-- C7: a locally generated ICE candidate for a viewer id is appended to the
send transcript as an ice_candidate envelope tagged with that viewer id if
and only if the socket reference is non-null and open; when it is not, the
whole state is unchanged, so the candidate is dropped and nothing is queued. -/
theorem c7_local_candidate_forwarded_iff_open (myId vid : String) (s : RTC.BState)
    (c : RTC.IceCandidate) :
    ((RTC.onicecandidate myId vid s (some c)).sent
        = s.sent ++ [RTC.Envelope.iceCandidate c vid myId] ↔ RTC.socketOpen s = true)
    ∧ (RTC.socketOpen s = false → RTC.onicecandidate myId vid s (some c) = s) := by
  constructor
  · constructor
    · intro hsent
      cases hso : RTC.socketOpen s with
      | true => rfl
      | false =>
          unfold RTC.onicecandidate at hsent
          rw [hso] at hsent
          simp only [Bool.false_eq_true, if_false] at hsent
          have hlen := congrArg List.length hsent
          simp at hlen
    · intro hopen
      unfold RTC.onicecandidate
      rw [hopen]
      simp
  · intro hfalse
    unfold RTC.onicecandidate
    rw [hfalse]
    simp

/-- Witness for C7 at a torn-down state whose socket is closed and nulled. -/
theorem c7_local_candidate_forwarded_iff_open_witness :
    ((RTC.onicecandidate "b" "v1" (RTC.stopStreaming (RTC.streamingState "b" []))
        (some { payload := "cand" })).sent
      = (RTC.stopStreaming (RTC.streamingState "b" [])).sent
        ++ [RTC.Envelope.iceCandidate { payload := "cand" } "v1" "b"]
      ↔ RTC.socketOpen (RTC.stopStreaming (RTC.streamingState "b" [])) = true)
    ∧ RTC.onicecandidate "b" "v1" (RTC.stopStreaming (RTC.streamingState "b" []))
        (some { payload := "cand" })
      = RTC.stopStreaming (RTC.streamingState "b" []) := by
  have h := c7_local_candidate_forwarded_iff_open "b" "v1"
    (RTC.stopStreaming (RTC.streamingState "b" [])) { payload := "cand" }
  exact ⟨h.1, h.2 (by decide)⟩

end Broadcast

namespace Broadcast

theorem snap_fold_inv :
    ∀ (evs : List Snap.Event) (s : Snap.BState),
      s.viewerCount = s.viewers.length → s.viewers.Nodup →
      (evs.foldl Snap.step s).viewerCount = (evs.foldl Snap.step s).viewers.length
      ∧ (evs.foldl Snap.step s).viewers.Nodup := by
  intro evs
  induction evs with
  | nil => intro s hc hn; exact ⟨hc, hn⟩
  | cons e rest ih =>
      intro s hc hn
      have hfold : (e :: rest).foldl Snap.step s = rest.foldl Snap.step (Snap.step s e) := rfl
      rw [hfold]
      refine ih (Snap.step s e) ?_ ?_
      · cases e with
        | joined vid => rfl
        | left vid => rfl
        | otherMsg => exact hc
        | stop => rfl
      · cases e with
        | joined vid =>
            show (Snap.setInsert s.viewers vid).Nodup
            unfold Snap.setInsert
            by_cases hm : vid ∈ s.viewers
            · rw [if_pos hm]; exact hn
            · rw [if_neg hm]; exact nodup_append_singleton s.viewers vid hm hn
        | left vid =>
            show (s.viewers.erase vid).Nodup
            exact hn.erase vid
        | otherMsg => exact hn
        | stop => exact List.nodup_nil

/-- C9: in the snapshot-pump broadcaster, after any event sequence the
displayed viewer count equals the size of the duplicate-free tracked
viewer-id set; a joined notification for an already tracked id leaves the
count unchanged, a left notification for an untracked id leaves the count
unchanged, and stopping the stream empties the set and zeroes the count. The
count is a set cardinality and hence can never be negative. -/
theorem c9_snapshot_count_matches_set (evs : List Snap.Event) (vidIn vidOut : String) :
    ((Snap.run evs).viewerCount = (Snap.run evs).viewers.length
      ∧ (Snap.run evs).viewers.Nodup)
    ∧ (vidIn ∈ (Snap.run evs).viewers →
        (Snap.step (Snap.run evs) (Snap.Event.joined vidIn)).viewerCount
          = (Snap.run evs).viewerCount)
    ∧ (vidOut ∉ (Snap.run evs).viewers →
        (Snap.step (Snap.run evs) (Snap.Event.left vidOut)).viewerCount
          = (Snap.run evs).viewerCount)
    ∧ (Snap.step (Snap.run evs) Snap.Event.stop).viewers = []
    ∧ (Snap.step (Snap.run evs) Snap.Event.stop).viewerCount = 0 := by
  have hinv := snap_fold_inv evs Snap.init rfl List.nodup_nil
  have hrun : Snap.run evs = evs.foldl Snap.step Snap.init := rfl
  rw [hrun]
  refine ⟨hinv, ?_, ?_, rfl, rfl⟩
  · intro hmem
    show (Snap.setInsert (evs.foldl Snap.step Snap.init).viewers vidIn).length
        = (evs.foldl Snap.step Snap.init).viewerCount
    unfold Snap.setInsert
    rw [if_pos hmem, hinv.1]
  · intro hmem
    show ((evs.foldl Snap.step Snap.init).viewers.erase vidOut).length
        = (evs.foldl Snap.step Snap.init).viewerCount
    rw [List.erase_of_not_mem hmem, hinv.1]

/-- Witness for C9 after a single join of viewer a, with a tracked and b
untracked. -/
theorem c9_snapshot_count_matches_set_witness :
    ((Snap.run [Snap.Event.joined "a"]).viewerCount
        = (Snap.run [Snap.Event.joined "a"]).viewers.length
      ∧ (Snap.run [Snap.Event.joined "a"]).viewers.Nodup)
    ∧ (Snap.step (Snap.run [Snap.Event.joined "a"]) (Snap.Event.joined "a")).viewerCount
        = (Snap.run [Snap.Event.joined "a"]).viewerCount
    ∧ (Snap.step (Snap.run [Snap.Event.joined "a"]) (Snap.Event.left "b")).viewerCount
        = (Snap.run [Snap.Event.joined "a"]).viewerCount
    ∧ (Snap.step (Snap.run [Snap.Event.joined "a"]) Snap.Event.stop).viewers = []
    ∧ (Snap.step (Snap.run [Snap.Event.joined "a"]) Snap.Event.stop).viewerCount = 0 := by
  have h := c9_snapshot_count_matches_set [Snap.Event.joined "a"] "a" "b"
  exact ⟨h.1, h.2.1 (by decide), h.2.2.1 (by decide), h.2.2.2.1, h.2.2.2.2⟩

end Broadcast
